import Mathlib

/-!
Shallow embedding of the `uart_to_ftdi_i2c` bridge.

The repository emulates an NXP SC18IM704 UART-to-I2C bridge.  Its core is the
`main` command loop of `uart_to_ftdi_i2c.py` (lines 72-129): an event loop that
reads bytes from a serial port and drives an FTDI I2C channel.  We embed that
loop as a small-step state machine.  Every suspension point of the Python code
(a `uart.read` call or an `hi2c` transport call) consumes exactly one event of
an event script; outputs (transport-level I2C writes, serial writes, log
lines) are collected in a trace.

The serial transport is modelled at the interface level the code assumes:
`uart.read(n)` either returns exactly `n` bytes or signals a timeout
(`serial.Timeout` in the source), and a `KeyboardInterrupt` can be delivered at
any blocking call.  `FtdiI2C.write` can raise `FtdiError`
(`ctypes_veneer._check_ftdi_status`); `FtdiI2C.read` (package `__init__.py`
lines 41-42) has the body `return` and is embedded as the constant `none`,
performing no transport call.

The low-level buffer handling of `ctypes_veneer.read_device` (lines 210-233)
is embedded separately at the end of the definitions.
-/

/-- Exceptions that can propagate out of the run loop uncaught:
`FtdiError` raised by `_check_ftdi_status` (ctypes_veneer.py lines 140-144),
and the `NameError` from the unbound local `next_char` in the idle logging
branch (uart_to_ftdi_i2c.py line 125). -/
inductive Err where
  | ftdiError
  | nameError
deriving DecidableEq, Repr

/-- Events consumed by the loop, one per blocking call:
`rx bs` is a `uart.read` returning exactly the requested bytes `bs`;
`rxTimeout` is a `uart.read` raising `serial.Timeout`;
`intr` is a `KeyboardInterrupt` delivered at the blocking call;
`i2cOk` / `i2cErr` are the outcomes of an `hi2c.write` transport call. -/
inductive Ev where
  | rx (bs : List Nat)
  | rxTimeout
  | intr
  | i2cOk
  | i2cErr
deriving DecidableEq, Repr

/-- Observable outputs of the loop:
`i2cWrite` is a transport-level I2C write, i.e. a `li2c.write_device` call
(`FtdiI2C.write` passes `start=True` and its `stop` argument, `__init__.py`
lines 38-39); `serialWrite` is a `uart.write` (`none` models Python `None`);
`log` is the `logger.debug` call of the idle branch with the value of the
local `next_char` it interpolates. -/
inductive Out where
  | i2cWrite (addr : Nat) (data : List Nat) (start stop : Bool)
  | serialWrite (data : Option (List Nat))
  | log (b : Nat)
deriving DecidableEq, Repr

/-- Program points of `main`'s loop (uart_to_ftdi_i2c.py lines 80-129).
`nc` is the current binding of the Python local `next_char` (`none` =
unbound).  `idle` is about to run line 84 (`uart.read(1)`, infinite timeout);
`addrPhase` is the top of the inner loop, about to run line 90
(`uart.read(2)`); `writePhase` is about to run line 102
(`uart.read(length+1)`); `readPhase` is about to run line 114 (`uart.read(1)`);
`i2cWriting` is about to run line 109 (`hi2c.write`).  `done` is the run loop
exited by the `break` of line 129 (caught `KeyboardInterrupt`); `fatal` is an
uncaught exception propagating out of the loop; `stuck` is a model artifact
for an event that cannot occur at the given program point. -/
inductive State where
  | idle (nc : Option Nat)
  | addrPhase (nc : Option Nat)
  | writePhase (nc : Option Nat) (addr len : Nat)
  | readPhase (nc : Option Nat) (addr len : Nat)
  | i2cWriting (nc : Option Nat) (addr : Nat) (data : List Nat) (stopFlag : Bool)
  | done
  | fatal (e : Err)
  | stuck
deriving DecidableEq, Repr

/-- Line 91: `write = addr % 1 == 0`. -/
def decode_write (raw_addr : Nat) : Bool := raw_addr % 1 == 0

/-- Line 92: `addr = addr // 2`. -/
def decode_addr (raw_addr : Nat) : Nat := raw_addr / 2

/-- Package `__init__.py` lines 41-42: `def read(self, address, length, start=bool, stop=bool): return`
— the body is a bare `return`, so the method performs no transport call and
returns Python `None`. -/
def ftdiI2C_read (_address _length : Nat) (_start _stop : Bool) : Option (List Nat) :=
  none

/-- One step of the loop: at state `s`, the blocking call consumes event `e`,
producing the next state and the outputs emitted during the step.  This is a
direct transliteration of the control flow of `main` (lines 80-129); see each
alternative's comment for the source lines. -/
def mainStep : State → Ev → State × List Out
  -- line 84: `char = uart.read(1)` with infinite timeout
  | .idle nc, .rx bs =>
    match bs with
    | [b] =>
      if b == 83 then (.addrPhase nc, [])              -- line 85: `if char == b'S'`
      else
        match nc with
        | some v => (.idle nc, [.log v])               -- line 125: logs `next_char`
        | none => (.fatal .nameError, [])              -- line 125: `next_char` unbound
    | _ => (.stuck, [])
  | .idle _, .intr => (.done, [])                      -- lines 128-129
  | .idle _, _ => (.stuck, [])
  -- line 90: `addr, length = uart.read(2)` with timeout 0.7
  | .addrPhase nc, .rx bs =>
    match bs with
    | [a, l] =>
      if decode_write a then (.writePhase nc (decode_addr a) l, [])  -- line 98
      else (.readPhase nc (decode_addr a) l, [])
    | _ => (.stuck, [])
  | .addrPhase nc, .rxTimeout => (.addrPhase nc, [])   -- lines 93-94: `continue`
  | .addrPhase _, .intr => (.done, [])
  | .addrPhase _, _ => (.stuck, [])
  -- line 102: `*data, next_char = uart.read(length + 1)`
  | .writePhase _nc addr l, .rx bs =>
    if bs.length == l + 1 then
      let data := bs.dropLast
      let nchar := bs.getLastD 0
      -- line 107: `next_char_stop = next_char == ord('S')`
      (.i2cWriting (some nchar) addr data (nchar == 83), [])
    else (.stuck, [])
  | .writePhase nc _ _, .rxTimeout => (.idle nc, [])   -- lines 103-105: `break`
  | .writePhase _ _ _, .intr => (.done, [])
  | .writePhase _ _ _, _ => (.stuck, [])
  -- line 109: `hi2c.write(addr, bytes(data), stop=next_char_stop)`,
  -- a `li2c.write_device` call with `start=True`
  | .i2cWriting nc addr data stopFlag, .i2cOk =>
    (if stopFlag then .idle nc else .addrPhase nc,     -- lines 122-123
     [.i2cWrite addr data true stopFlag])
  | .i2cWriting _ addr data stopFlag, .i2cErr =>
    (.fatal .ftdiError, [.i2cWrite addr data true stopFlag])  -- FtdiError uncaught
  | .i2cWriting _ _ _ _, .intr => (.done, [])
  | .i2cWriting _ _ _ _, _ => (.stuck, [])
  -- line 114: `next_char_stop = uart.read(1) == b'S'`
  | .readPhase nc addr l, .rx bs =>
    match bs with
    | [t] =>
      -- line 118: `data = hi2c.read(addr, length, stop=next_char_stop)` is the
      -- stub returning None (no transport call); line 121: `uart.write(data)`
      (if t == 83 then .idle nc else .addrPhase nc,
       [.serialWrite (ftdiI2C_read addr l true (t == 83))])
    | _ => (.stuck, [])
  | .readPhase nc _ _, .rxTimeout => (.idle nc, [])    -- lines 115-117: `break`
  | .readPhase _ _ _, .intr => (.done, [])
  | .readPhase _ _ _, _ => (.stuck, [])
  -- terminal states absorb
  | .done, _ => (.done, [])
  | .fatal e, _ => (.fatal e, [])
  | .stuck, _ => (.stuck, [])

/-- Run the loop from state `s` over an event script, collecting the trace. -/
def runFrom : State → List Ev → State × List Out
  | s, [] => (s, [])
  | s, e :: es =>
    let p := mainStep s e
    let q := runFrom p.1 es
    (q.1, p.2 ++ q.2)

/-- Run of `main`'s loop from its entry: `next_char` unbound, idle read. -/
def mainRun (es : List Ev) : State × List Out := runFrom (.idle none) es

/-- Final program point after consuming the script. -/
def mainState (es : List Ev) : State := (mainRun es).1

/-- Trace of transport/serial/log outputs over the script. -/
def mainTrace (es : List Ev) : List Out := (mainRun es).2

/-- The run loop has been exited: either the `break` on `KeyboardInterrupt`
(line 129) or an uncaught exception propagating out of `while True`. -/
def loopExited : State → Bool
  | .done => true
  | .fatal _ => true
  | _ => false

/-- The `with` statement of lines 76-77 runs `FtdiI2C.__exit__`
(`__init__.py` lines 35-36, `li2c.close_channel`) whenever control leaves the
block, normally or by exception; so the channel is closed exactly when the
run loop has been exited. -/
def channelClosed (es : List Ev) : Bool := loopExited (mainState es)

/-- A state at which the loop is alive and blocked on a call (where a
`KeyboardInterrupt` can be delivered). -/
def atBlockingCall : State → Bool
  | .idle _ => true
  | .addrPhase _ => true
  | .writePhase _ _ _ => true
  | .readPhase _ _ _ => true
  | .i2cWriting _ _ _ _ => true
  | _ => false

/-! ## `ctypes_veneer.read_device` buffer handling (lines 210-233)

`read_device` allocates `buffer = ctypes.c_char_p()` and sets
`buffer.value = bytes(bytes_to_read)`; after `_I2C_DeviceRead` fills the
buffer it asserts `size_transferred == bytes_to_read` (line 232) and returns
`bytes(buffer.value)` (line 233).  Reading `.value` of a `c_char_p` yields the
bytes up to (excluding) the first NUL byte.  We model the buffer contents
after the transfer as a list of byte values. -/

/-- Reading `buffer.value` of a `ctypes.c_char_p`: the bytes up to the first
NUL (0x00) byte, excluding it. -/
def c_char_p_value : List Nat → List Nat
  | [] => []
  | b :: bs => if b = 0 then [] else b :: c_char_p_value bs

/-- `read_device` (ctypes_veneer.py lines 210-233), given the number of bytes
requested, the `size_transferred` reported by the DLL and the buffer contents
after the transfer: the assertion of line 232 fails (`none`) unless
`size_transferred == bytes_to_read`; on success the result is
`bytes(buffer.value)`. -/
def read_device (bytes_to_read size_transferred : Nat) (buffer : List Nat) :
    Option (List Nat) :=
  if size_transferred = bytes_to_read then some (c_char_p_value buffer) else none

/-! ## Helper lemmas -/

theorem runFrom_append (s : State) (es es2 : List Ev) :
    runFrom s (es ++ es2) =
      ((runFrom (runFrom s es).1 es2).1,
       (runFrom s es).2 ++ (runFrom (runFrom s es).1 es2).2) := by
  induction es generalizing s with
  | nil => simp [runFrom]
  | cons e t ih => simp [runFrom, ih, List.append_assoc]

theorem runFrom_done (es : List Ev) : runFrom State.done es = (State.done, []) := by
  induction es with
  | nil => rfl
  | cons e t ih => simp [runFrom, mainStep, ih]

theorem mainStep_intr (s : State) (h : atBlockingCall s = true) :
    mainStep s Ev.intr = (State.done, []) := by
  cases s <;> first | rfl | exact absurd h (by simp [atBlockingCall])

theorem dropLast_eq_take_of_length (bs : List Nat) (l : Nat) (h : bs.length = l + 1) :
    bs.dropLast = bs.take l := by
  rw [List.dropLast_eq_take, h, Nat.add_sub_cancel]

theorem getLastD_eq_getD_of_length (bs : List Nat) (l : Nat) (h : bs.length = l + 1) :
    bs.getLastD 0 = bs.getD l 0 := by
  induction bs generalizing l with
  | nil => simp at h
  | cons b t ih =>
    cases t with
    | nil =>
      simp at h
      subst h
      rfl
    | cons c u =>
      cases l with
      | zero => simp at h
      | succ m =>
        have ht : (c :: u).length = m + 1 := by
          simpa using h
        have h1 : (b :: c :: u).getLastD 0 = (c :: u).getLastD 0 := by
          rw [List.getLastD_cons 0 b (c :: u), List.getLastD_cons b c u,
            List.getLastD_cons 0 c u]
        rw [h1, ih m ht, List.getD_cons_succ]

theorem c_char_p_value_eq_takeWhile (bs : List Nat) :
    c_char_p_value bs = bs.takeWhile (fun b => b != 0) := by
  induction bs with
  | nil => rfl
  | cons b t ih =>
    by_cases hb : b = 0 <;> simp [c_char_p_value, List.takeWhile_cons, hb, ih]

theorem c_char_p_value_length_lt (bs : List Nat) (h : 0 ∈ bs) :
    (c_char_p_value bs).length < bs.length := by
  induction bs with
  | nil => cases h
  | cons b t ih =>
    by_cases hb : b = 0
    · simp [c_char_p_value, hb]
    · have ht : 0 ∈ t := by
        rcases List.mem_cons.mp h with h0 | h0
        · exact absurd h0.symm hb
        · exact h0
      simp only [c_char_p_value, if_neg hb, List.length_cons]
      exact Nat.succ_lt_succ (ih ht)

theorem c_char_p_value_length_eq_iff (bs : List Nat) :
    (c_char_p_value bs).length = bs.length ↔ ∀ b ∈ bs, b ≠ 0 := by
  induction bs with
  | nil => simp [c_char_p_value]
  | cons b t ih =>
    by_cases hb : b = 0
    · subst hb
      simp only [c_char_p_value, if_pos rfl, List.length_nil, List.length_cons]
      constructor
      · intro h0
        exact absurd h0.symm (Nat.succ_ne_zero _)
      · intro hall
        exact absurd rfl (hall 0 (List.mem_cons_self _ _))
    · simp only [c_char_p_value, if_neg hb, List.length_cons, Nat.succ_inj, ih,
        List.mem_cons]
      constructor
      · intro hall c hc
        rcases hc with hc | hc
        · subst hc; exact hb
        · exact hall c hc
      · intro hall c hc
        exact hall c (Or.inr hc)

theorem take_append_getD_of_length (bs : List Nat) (l : Nat) (h : bs.length = l + 1) :
    bs.take l ++ [bs.getD l 0] = bs := by
  induction bs generalizing l with
  | nil => simp at h
  | cons b t ih =>
    cases l with
    | zero =>
      have ht : t = [] := by simpa [List.length_eq_zero] using h
      subst ht
      rfl
    | succ m =>
      have ht : t.length = m + 1 := by simpa using h
      have hih := ih m ht
      simp only [List.take_succ_cons, List.getD_cons_succ, List.cons_append, hih]

/-! ## Claims -/

/-- Claim C1: the spec says `direction = Write` iff the raw address byte is
even, with `address = raw_addr / 2`.  The code (line 91) computes
`write = addr % 1 == 0`, which is `True` for every byte, so the odd byte
0x55 = 85 — a Read per the spec — is decoded as Write.  The address half of
the claim does hold: `decode_addr` is division by 2. -/
theorem C1_direction_decode_at_odd_byte :
    decode_write 85 = true ∧ 85 % 2 = 1
      ∧ (∀ raw_addr, decode_write raw_addr = true)
      ∧ (∀ raw_addr, decode_addr raw_addr = raw_addr / 2) :=
  ⟨rfl, rfl, fun raw_addr => by simp [decode_write, Nat.mod_one], fun _ => rfl⟩

/-- Claim C2: the spec's Read frame (odd raw address byte) should issue one
I2C read of `length` bytes and echo them to serial.  On the code, frame
`S 0x55 0x05`, payload-style bytes and a non-`'S'` terminator is decoded as a
Write frame (`decode_write` bug) and issues a transport-level I2C *write*;
moreover `FtdiI2C.read` is a stub whose body is `return`, so no I2C read and
no echo could ever happen. -/
theorem C2_read_frame_issues_write :
    mainTrace [Ev.rx [83], Ev.rx [85, 5], Ev.rx [1, 2, 3, 4, 5, 80], Ev.i2cOk] =
        [Out.i2cWrite 42 [1, 2, 3, 4, 5] true false]
      ∧ (∀ a l s p, ftdiI2C_read a l s p = none) :=
  ⟨by decide, fun _ _ _ _ => rfl⟩

/-- Claim C3: the spec says a Write frame terminated by `'S'` is issued with
`stop = False` and is followed by re-entry into AddressPhase.  The code sets
`next_char_stop = next_char == ord('S')` (line 107), so the frame
`S 0x54 0x02 0x00 0x00 'S'` is issued with `stop = True` and the engine
returns to Idle. -/
theorem C3_repeated_start_inverted :
    mainTrace [Ev.rx [83], Ev.rx [84, 2], Ev.rx [0, 0, 83], Ev.i2cOk] =
        [Out.i2cWrite 42 [0, 0] true true]
      ∧ mainState [Ev.rx [83], Ev.rx [84, 2], Ev.rx [0, 0, 83], Ev.i2cOk] =
        State.idle (some 83) := by
  decide

/-- Claim C4: the spec's Terminate step goes to Idle on a Stop terminator
(any byte other than `'S'`) and to AddressPhase on `'S'`.  The code's
behavior is exactly inverted: terminator `'S'` (83) leads to Idle and
terminator `'P'` (80) leads back to AddressPhase. -/
theorem C4_terminate_inverted :
    mainState [Ev.rx [83], Ev.rx [84, 1], Ev.rx [7, 83], Ev.i2cOk] =
        State.idle (some 83)
      ∧ mainState [Ev.rx [83], Ev.rx [84, 1], Ev.rx [7, 80], Ev.i2cOk] =
        State.addrPhase (some 80) := by
  decide

/-- Claim C5: on an AddressPhase timeout the spec abandons the frame and
returns to Idle, so the next `'S'` starts a fresh frame.  The code's handler
(lines 93-94) is `continue`: the engine stays in AddressPhase (it does issue
zero I2C calls), and a following `'S'` byte is consumed as a raw address
byte (83 / 2 = 41) rather than recognized as a frame start. -/
theorem C5_addr_timeout_stays_in_frame :
    mainState [Ev.rx [83], Ev.rxTimeout] = State.addrPhase none
      ∧ mainState [Ev.rx [83], Ev.rxTimeout, Ev.rx [83, 2]] =
        State.writePhase none 41 2
      ∧ mainTrace [Ev.rx [83], Ev.rxTimeout, Ev.rx [83, 2]] = [] := by
  decide

/-- Claim C6: the spec contains an I2C transport failure within the frame
(report, return to Idle, process keeps running).  In the code nothing catches
`FtdiError` (the loop catches only `serial.Timeout` and `KeyboardInterrupt`),
so a failing `hi2c.write` terminates the run loop instead of returning to
Idle.  No partial data is echoed (the trace holds only the attempted I2C
write). -/
theorem C6_transport_failure_fatal :
    mainState [Ev.rx [83], Ev.rx [84, 2], Ev.rx [0, 0, 80], Ev.i2cErr] =
        State.fatal Err.ftdiError
      ∧ loopExited (State.fatal Err.ftdiError) = true
      ∧ mainTrace [Ev.rx [83], Ev.rx [84, 2], Ev.rx [0, 0, 80], Ev.i2cErr] =
        [Out.i2cWrite 42 [0, 0] true false] := by
  decide

/-- Claim C7: the spec logs an unrecognized idle byte and stays in Idle.  The
code's log line (line 125) interpolates the local `next_char`, not the byte
just read: on the very first unrecognized byte (65 = `'A'`) `next_char` is
unbound and the loop dies with a `NameError`; after a completed Write frame
it logs the stale terminator byte (83) instead of the received byte (65). -/
theorem C7_idle_byte_logging_bug :
    mainState [Ev.rx [65]] = State.fatal Err.nameError
      ∧ mainTrace [Ev.rx [83], Ev.rx [84, 0], Ev.rx [83], Ev.i2cOk, Ev.rx [65]] =
        [Out.i2cWrite 42 [] true true, Out.log 83]
      ∧ mainState [Ev.rx [83], Ev.rx [84, 0], Ev.rx [83], Ev.i2cOk, Ev.rx [65]] =
        State.idle (some 83) := by
  decide

/-- Claim C8, counterexample: a script with no interrupt event at all — a
single unrecognized idle byte (66) — terminates the run loop (via the
uncaught `NameError`), so operator cancellation is not the only terminating
path.  The channel is still closed, by the `with` block. -/
theorem C8_counterexample :
    mainState [Ev.rx [66]] = State.fatal Err.nameError
      ∧ loopExited (mainState [Ev.rx [66]]) = true
      ∧ channelClosed [Ev.rx [66]] = true := by
  decide

/-- Claim C8 as amended: a `KeyboardInterrupt` delivered at any blocking call
terminates the run loop and the I2C channel is closed on exit; but it is not
the only terminating path — uncaught exceptions (`FtdiError`, `NameError`)
also terminate the loop, likewise with the channel closed. -/
theorem C8_amended_interrupt_shutdown (es rest : List Ev)
    (h : atBlockingCall (mainState es) = true) :
    mainState (es ++ Ev.intr :: rest) = State.done
      ∧ channelClosed (es ++ Ev.intr :: rest) = true := by
  have hs : mainStep (mainState es) Ev.intr = (State.done, []) := mainStep_intr _ h
  have h1 : mainState (es ++ Ev.intr :: rest) = State.done := by
    unfold mainState mainRun at hs ⊢
    rw [runFrom_append]
    simp [runFrom, hs, runFrom_done]
  refine ⟨h1, ?_⟩
  simp [channelClosed, h1, loopExited]

theorem C8_amended_witness :
    mainState ([Ev.rx [83]] ++ Ev.intr :: []) = State.done
      ∧ channelClosed ([Ev.rx [83]] ++ Ev.intr :: []) = true :=
  C8_amended_interrupt_shutdown [Ev.rx [83]] [] (by decide)

/-- Claim C9: for a Write frame whose WritePhase read succeeds with
`length + 1` bytes, the payload handed to the I2C write is exactly the first
`length` of them, and the final byte serves only as the terminator (it
determines the stop flag and is not part of the payload). -/
theorem C9_write_payload (a l : Nat) (bs : List Nat) (rest : List Ev)
    (h : bs.length = l + 1) :
    (mainTrace (Ev.rx [83] :: Ev.rx [a, l] :: Ev.rx bs :: Ev.i2cOk :: rest)).head? =
        some (Out.i2cWrite (decode_addr a) (bs.take l) true (bs.getLastD 0 == 83))
      ∧ bs.take l ++ [bs.getLastD 0] = bs
      ∧ (bs.take l).length = l := by
  have hw : decode_write a = true := by simp [decode_write, Nat.mod_one]
  have hd : bs.dropLast = bs.take l := dropLast_eq_take_of_length bs l h
  have hg : bs.getLastD 0 = bs.getD l 0 := getLastD_eq_getD_of_length bs l h
  refine ⟨?_, ?_, ?_⟩
  · simp [mainTrace, mainRun, runFrom, mainStep, hw, h, hd]
  · rw [hg]
    exact take_append_getD_of_length bs l h
  · simp [List.length_take, h]

theorem C9_witness :
    (mainTrace [Ev.rx [83], Ev.rx [86, 2], Ev.rx [9, 9, 80], Ev.i2cOk]).head? =
        some (Out.i2cWrite (decode_addr 86) (([9, 9, 80] : List Nat).take 2) true
          ((([9, 9, 80] : List Nat).getLastD 0) == 83))
      ∧ ([9, 9, 80] : List Nat).take 2 ++ [([9, 9, 80] : List Nat).getLastD 0] =
        [9, 9, 80]
      ∧ (([9, 9, 80] : List Nat).take 2).length = 2 :=
  C9_write_payload 86 2 [9, 9, 80] [] (by decide)

/-- Claim C10: when `read_device`'s full-transfer assertion passes, the
returned bytes are the transfer buffer truncated at its first NUL byte
(`bytes(buffer.value)` of a `c_char_p`): a zero byte anywhere in the buffer
makes the result shorter than `bytes_to_read`, and the result has length
`bytes_to_read` exactly when the buffer contains no zero byte. -/
theorem C10_read_device_nul_truncation (n : Nat) (buffer out : List Nat)
    (hlen : buffer.length = n) (hok : read_device n n buffer = some out) :
    out = buffer.takeWhile (fun b => b != 0)
      ∧ ((0 : Nat) ∈ buffer → out.length < n)
      ∧ (out.length = n ↔ ∀ b ∈ buffer, b ≠ 0) := by
  have hout : c_char_p_value buffer = out := by
    simpa [read_device] using hok
  subst hout
  subst hlen
  exact ⟨c_char_p_value_eq_takeWhile buffer,
    fun h0 => c_char_p_value_length_lt buffer h0,
    c_char_p_value_length_eq_iff buffer⟩

theorem C10_witness :
    ([1] : List Nat) = ([1, 0, 2] : List Nat).takeWhile (fun b => b != 0)
      ∧ ((0 : Nat) ∈ ([1, 0, 2] : List Nat) → ([1] : List Nat).length < 3)
      ∧ (([1] : List Nat).length = 3 ↔ ∀ b ∈ ([1, 0, 2] : List Nat), b ≠ 0) :=
  C10_read_device_nul_truncation 3 [1, 0, 2] [1] (by decide) (by decide)
